import Mathlib

/-!
Shallow embedding of the anomaly-detection trading bot:
`src/volume_anomaly_detector.py` (class `VolumeAnomalyDetector`) and the
order/position lifecycle of `main.py` (class `AnomalyTradingBot`).

Prices, volumes and thresholds are embedded as exact rationals.  The source
computes a z-score `z = (value - mean) / std` with `std = sqrt(variance)`;
since the square root of a rational is irrational in general, the embedding
carries the exact square `z_sq = z^2 = (value - mean)^2 / variance` and
renders the float comparisons `|z| > t` and `|z| >= t` exactly through
squares: for a real z with `z^2 = z_sq`,
  `|z| > t  ↔  t < 0 ∨ t^2 < z_sq` and `|z| ≥ t ↔ t < 0 ∨ t^2 ≤ z_sq`.
In the branch where the source's `std == 0`, the source assigns the exact
literal z-scores `0.0` / `1.0`; there `z_sq` is exactly `0` or `1`.
-/

/-- Arithmetic mean of a list of rationals (`np.mean`); `0` on `[]`
(the source guards emptiness through `min_samples`). -/
def listMean (xs : List ℚ) : ℚ := xs.sum / xs.length

/-- Population variance of a list of rationals; `np.std` is its square
root, so `np.std(xs) > 0` iff `pvariance xs > 0`. -/
def pvariance (xs : List ℚ) : ℚ :=
  ((xs.map (fun x => (x - listMean xs) ^ 2)).sum) / xs.length

/-- Exact square of the z-score the source computes: when the standard
deviation is positive, `z = (value - mean)/std`, so `z^2 = (value-mean)^2 /
variance`; when the deviation is zero the source sets the literal z-score
`1.0` if the value differs from the mean and the threshold is `0`,
otherwise `0.0`. -/
def zScoreSq (hist : List ℚ) (value t : ℚ) : ℚ :=
  if 0 < pvariance hist then (value - listMean hist) ^ 2 / pvariance hist
  else if value ≠ listMean hist ∧ t = 0 then 1 else 0

/-- Exact rendering of the float comparison `abs(z) > t` for a real `z`
with `z^2 = zsq`. -/
def absZgt (zsq t : ℚ) : Bool := decide (t < 0) || decide (t ^ 2 < zsq)

/-- Exact rendering of the float comparison `abs(z) >= t` for a real `z`
with `z^2 = zsq` (sound since `zsq ≥ 0` wherever it is used). -/
def absZge (zsq t : ℚ) : Bool := decide (t < 0) || decide (t ^ 2 ≤ zsq)

/-- Per-dimension anomaly flag of `detect_anomaly`:
`abs(z) >= t if t == 0 else abs(z) > t`. -/
def dimAnomaly (hist : List ℚ) (value t : ℚ) : Bool :=
  if t = 0 then absZge (zScoreSq hist value t) t
  else absZgt (zScoreSq hist value t) t

/-- Detection modes of `VolumeAnomalyDetector` (`detection_mode` strings;
an unrecognized string behaves like `vol_only` in the source). -/
inductive Mode where
  | vol_only : Mode
  | price_only : Mode
  | vol_and_price : Mode
  | vol_or_price : Mode
deriving DecidableEq

/-- Constructor arguments of `VolumeAnomalyDetector`. -/
structure DetectorConfig where
  window_size : ℕ
  volume_z_threshold : ℚ
  price_z_threshold : ℚ
  detection_mode : Mode
  min_samples : ℕ
  min_volume_usd : ℚ

/-- Mutable state of `VolumeAnomalyDetector`: the two per-symbol
`deque(maxlen=window_size)` histories (defaultdict, so total functions
defaulting to `[]`) and the two last-known-normal maps. -/
structure DetectorState where
  volume_history : String → List ℚ
  price_history : String → List ℚ
  last_normal_volume : String → Option ℚ
  last_normal_price : String → Option ℚ

/-- Fresh detector state: empty histories, empty baselines. -/
def initDetector : DetectorState :=
  ⟨fun _ => [], fun _ => [], fun _ => none, fun _ => none⟩

/-- Pointwise update of a symbol-keyed map. -/
def updFn {α : Type} (f : String → α) (k : String) (v : α) : String → α :=
  fun s => if s = k then v else f s

/-- Append to a `deque(maxlen=w)`: add on the right, evict from the left
down to `w` elements. -/
def pushBounded (w : ℕ) (xs : List ℚ) (x : ℚ) : List ℚ :=
  let ys := xs ++ [x]
  ys.drop (ys.length - w)

/-- Result record of `detect_anomaly` (the fields of its `details` dict
that the specification talks about, with z-scores carried as exact
squares; `sufficient = false` is the early `"Insufficient data"` return). -/
structure Detection where
  is_anomaly : Bool
  sufficient : Bool
  samples : ℕ
  volume_mean : ℚ
  volume_var : ℚ
  volume_z_sq : ℚ
  volume_anomaly : Bool
  price_mean : ℚ
  price_var : ℚ
  price_z_sq : ℚ
  price_anomaly : Bool

/-- Mode combination step of `detect_anomaly`. -/
def combineFlags (m : Mode) (va pa : Bool) : Bool :=
  match m with
  | Mode.vol_only => va
  | Mode.price_only => pa
  | Mode.vol_and_price => va && pa
  | Mode.vol_or_price => va || pa

/-- Embedding of `VolumeAnomalyDetector.detect_anomaly`: guard on
`min_samples` against the volume history, then per-dimension z-score
flags combined by the detection mode.  Does not mutate state. -/
def detect_anomaly (cfg : DetectorConfig) (st : DetectorState) (sym : String)
    (current_price current_volume : ℚ) : Detection :=
  let vh := st.volume_history sym
  let ph := st.price_history sym
  if vh.length < cfg.min_samples then
    ⟨false, false, vh.length, 0, 0, 0, false, 0, 0, 0, false⟩
  else
    let va := dimAnomaly vh current_volume cfg.volume_z_threshold
    let pa := dimAnomaly ph current_price cfg.price_z_threshold
    ⟨combineFlags cfg.detection_mode va pa, true, vh.length,
      listMean vh, pvariance vh, zScoreSq vh current_volume cfg.volume_z_threshold, va,
      listMean ph, pvariance ph, zScoreSq ph current_price cfg.price_z_threshold, pa⟩

/-- Embedding of `VolumeAnomalyDetector.is_anomalous`. -/
def is_anomalous (cfg : DetectorConfig) (st : DetectorState) (sym : String)
    (price volume : ℚ) : Bool :=
  (detect_anomaly cfg st sym price volume).is_anomaly

/-- Embedding of `VolumeAnomalyDetector.update_data`: the whole body is
guarded by `if not self.is_anomalous(...)`; inside, the baselines move
when the volume history is strictly longer or strictly shorter than
`min_samples`, and then the sample is appended to both histories. -/
def update_data (cfg : DetectorConfig) (st : DetectorState) (sym : String)
    (price volume : ℚ) : DetectorState :=
  if is_anomalous cfg st sym price volume then st
  else
    let vlen := (st.volume_history sym).length
    let st1 :=
      if cfg.min_samples < vlen then
        { st with
          last_normal_volume := updFn st.last_normal_volume sym (some volume),
          last_normal_price := updFn st.last_normal_price sym (some price) }
      else if vlen < cfg.min_samples then
        { st with
          last_normal_volume := updFn st.last_normal_volume sym (some volume),
          last_normal_price := updFn st.last_normal_price sym (some price) }
      else st
    { st1 with
      volume_history :=
        updFn st1.volume_history sym
          (pushBounded cfg.window_size (st1.volume_history sym) volume),
      price_history :=
        updFn st1.price_history sym
          (pushBounded cfg.window_size (st1.price_history sym) price) }

/-!
Lifecycle embedding, from `main.py` (`AnomalyTradingBot`).  Timestamps are
integer seconds; `datetime` subtraction yields a `timedelta`, and the code
reads its `.seconds` attribute, the normalized seconds component in
`[0, 86400)` — i.e. the difference modulo 86400, whole days discarded.
The exchange gateway is an oracle parameter: order placement is a function
from leg index to `none` (the result dict reports failure) or
`some order_id`; cancellation and closing are success predicates.
`get_positions` returns only nonzero positions, embedded as an association
list from symbol to signed size.
-/

/-- Order metadata stored in `active_orders[symbol]` entries. -/
structure OrderInfo where
  order_id : ℕ
  price : ℚ
  size : ℚ
  is_buy : Bool
  placed_at : ℤ
  last_normal_price : ℚ
  multiplier : ℚ
  amount_usdc : ℚ

/-- Position metadata stored in `position_tracker[symbol]`. -/
structure TrackerInfo where
  opened_at : ℤ
  is_buy : Bool
  entry_prices : List ℚ
  sizes : List ℚ
  total_size : ℚ
  orders_count : ℕ

/-- The two symbol-keyed dicts of `AnomalyTradingBot`, as association
lists (all operations keep keys unique, as python dicts do). -/
structure BotState where
  active_orders : List (String × List OrderInfo)
  position_tracker : List (String × TrackerInfo)

/-- Configuration of `AnomalyTradingBot` relevant to the lifecycle. -/
structure BotConfig where
  order_timeout : ℤ
  position_close_timeout : ℤ
  max_concurrent_orders : ℕ
  price_multipliers : List ℚ
  order_amounts_usdc : List ℚ

/-- Dict lookup on an association list (first match). -/
def alookup {α : Type} : List (String × α) → String → Option α
  | [], _ => none
  | (k, v) :: rest, key => if k = key then some v else alookup rest key

/-- Dict `del` on an association list (removes every entry with the key). -/
def aerase {α : Type} (m : List (String × α)) (k : String) : List (String × α) :=
  m.filter (fun p => decide (p.1 ≠ k))

/-- Dict assignment on an association list. -/
def ainsert {α : Type} (m : List (String × α)) (k : String) (v : α) :
    List (String × α) :=
  aerase m k ++ [(k, v)]

/-- Seconds component of a python `timedelta` holding `d` whole seconds:
the normalized value in `[0, 86400)`, whole days discarded. -/
def tdSeconds (d : ℤ) : ℤ := d % 86400

/-- One leg of `process_anomaly`: `target_price = last_normal_price *
multiplier`, buy exactly when `multiplier < 1.0`, `order_size =
amount_usdc / target_price`. -/
def mkLegOrder (now : ℤ) (lnp : ℚ) (oid : ℕ) (leg : ℚ × ℚ) : OrderInfo :=
  { order_id := oid
    price := lnp * leg.1
    size := leg.2 / (lnp * leg.1)
    is_buy := decide (leg.1 < 1)
    placed_at := now
    last_normal_price := lnp
    multiplier := leg.1
    amount_usdc := leg.2 }

/-- The `for i, (multiplier, amount_usdc) in enumerate(zip(...))` loop of
`process_anomaly`, from leg index `i`: every leg is submitted to the
gateway; the successful ones are collected, failures are only reported. -/
def placeLegsFrom (gw : ℕ → Option ℕ) (now : ℤ) (lnp : ℚ) :
    ℕ → List (ℚ × ℚ) → List OrderInfo
  | _, [] => []
  | i, leg :: rest =>
    match gw i with
    | some oid => mkLegOrder now lnp oid leg :: placeLegsFrom gw now lnp (i + 1) rest
    | none => placeLegsFrom gw now lnp (i + 1) rest

/-- All legs of a campaign, submitted starting at index `0`. -/
def placeLegs (gw : ℕ → Option ℕ) (now : ℤ) (lnp : ℚ) (legs : List (ℚ × ℚ)) :
    List OrderInfo :=
  placeLegsFrom gw now lnp 0 legs

/-- Position-tracker entry pre-recorded from placed orders (the source
uses the first order as reference). -/
def mkTracker (first : OrderInfo) (orders : List OrderInfo) : TrackerInfo :=
  { opened_at := first.placed_at
    is_buy := first.is_buy
    entry_prices := orders.map (fun o => o.price)
    sizes := orders.map (fun o => o.size)
    total_size := (orders.map (fun o => o.size)).sum
    orders_count := orders.length }

/-- Embedding of `AnomalyTradingBot.process_anomaly`: early return when
the symbol already has active orders, when the concurrent-order cap is
reached, or when the detector's `last_normal_price` for the symbol is
missing or falsy (`0`), or the event's `current_price` is falsy; otherwise
every configured leg is submitted, and if at least one leg succeeded the
symbol is recorded in `active_orders` and, simultaneously, a tracker
entry is pre-recorded in `position_tracker`. -/
def process_anomaly (cfg : BotConfig) (lastNormal : String → Option ℚ)
    (gw : ℕ → Option ℕ) (now : ℤ) (sym : String) (current_price : ℚ)
    (st : BotState) : BotState :=
  if (alookup st.active_orders sym).isSome then st
  else if cfg.max_concurrent_orders ≤ st.active_orders.length then st
  else
    match lastNormal sym with
    | none => st
    | some lnp =>
      if lnp = 0 then st
      else if current_price = 0 then st
      else
        match placeLegs gw now lnp (cfg.price_multipliers.zip cfg.order_amounts_usdc) with
        | [] => st
        | first :: rest =>
          { active_orders := ainsert st.active_orders sym (first :: rest)
            position_tracker :=
              ainsert st.position_tracker sym (mkTracker first (first :: rest)) }

/-- Expiry test of `check_expired_orders`: the elapsed value compared to
`order_timeout` is `(now - placed_at).seconds`, days discarded. -/
def orderIsExpired (timeout now : ℤ) (o : OrderInfo) : Bool :=
  decide (timeout ≤ tdSeconds (now - o.placed_at))

/-- Inner loop of `check_expired_orders` for one symbol's order list:
returns the retained orders and the order ids whose cancellation was
attempted (an expired order is dropped when the gateway cancellation
succeeds and retained for retry when it fails). -/
def expireOrders (timeout : ℤ) (cancelOk : ℕ → Bool) (now : ℤ) :
    List OrderInfo → List OrderInfo × List ℕ
  | [] => ([], [])
  | o :: rest =>
    let r := expireOrders timeout cancelOk now rest
    if orderIsExpired timeout now o then
      if cancelOk o.order_id then (r.1, o.order_id :: r.2)
      else (o :: r.1, o.order_id :: r.2)
    else (o :: r.1, r.2)

/-- Outer loop of `check_expired_orders` over the `active_orders` dict,
threading the `position_tracker`: when a symbol's order list becomes
empty its entry is deleted and any tracker entry for it is deleted too. -/
def goExpire (timeout : ℤ) (cancelOk : String → ℕ → Bool) (now : ℤ) :
    List (String × List OrderInfo) → List (String × TrackerInfo) →
    List (String × List OrderInfo) × List (String × TrackerInfo) × List (String × ℕ)
  | [], tracker => ([], tracker, [])
  | (sym, orders) :: rest, tracker =>
    let r := expireOrders timeout (cancelOk sym) now orders
    let trackerNext := if r.1.isEmpty then aerase tracker sym else tracker
    let tail := goExpire timeout cancelOk now rest trackerNext
    (if r.1.isEmpty then tail.1 else (sym, r.1) :: tail.1,
     tail.2.1,
     r.2.map (fun oid => (sym, oid)) ++ tail.2.2)

/-- Embedding of `AnomalyTradingBot.check_expired_orders`; the second
component is the list of attempted cancellations `(symbol, order_id)`. -/
def check_expired_orders (timeout : ℤ) (cancelOk : String → ℕ → Bool)
    (now : ℤ) (st : BotState) : BotState × List (String × ℕ) :=
  let r := goExpire timeout cancelOk now st.active_orders st.position_tracker
  (⟨r.1, r.2.1⟩, r.2.2)

/-- Fill-detection loop at the top of `check_and_close_old_positions`:
for every exchange-reported position whose symbol has active orders but
no tracker entry, a tracker entry is built from the order list (when it
is nonempty) and the symbol is deleted from `active_orders`. -/
def reconcileFills : List (String × ℚ) → BotState → BotState
  | [], st => st
  | (sym, _) :: rest, st =>
    let st1 :=
      if (alookup st.position_tracker sym).isNone ∧
          (alookup st.active_orders sym).isSome then
        match alookup st.active_orders sym with
        | some (first :: others) =>
          { active_orders := aerase st.active_orders sym
            position_tracker :=
              ainsert st.position_tracker sym (mkTracker first (first :: others)) }
        | some [] => { st with active_orders := aerase st.active_orders sym }
        | none => st
      else st
    reconcileFills rest st1

/-- Expiry test of `check_and_close_old_positions`: the elapsed value
compared to `position_close_timeout` is `(now - opened_at).seconds`,
days discarded. -/
def positionIsExpired (timeout now : ℤ) (tr : TrackerInfo) : Bool :=
  decide (timeout ≤ tdSeconds (now - tr.opened_at))

/-- Main loop of `check_and_close_old_positions` over the tracker: an
entry past its timeout is dropped silently when the exchange reports no
position for the symbol; otherwise a reduce-only close for the observed
absolute size is attempted — success drops the entry, failure retains it.
The second component lists the attempted closes `(symbol, size)`. -/
def goClose (timeout : ℤ) (closeOk : String → Bool) (now : ℤ)
    (positions : List (String × ℚ)) :
    List (String × TrackerInfo) → List (String × TrackerInfo) × List (String × ℚ)
  | [] => ([], [])
  | (sym, tr) :: rest =>
    let tail := goClose timeout closeOk now positions rest
    if positionIsExpired timeout now tr then
      match alookup positions sym with
      | none => (tail.1, tail.2)
      | some psize =>
        if closeOk sym then (tail.1, (sym, |psize|) :: tail.2)
        else ((sym, tr) :: tail.1, (sym, |psize|) :: tail.2)
    else ((sym, tr) :: tail.1, tail.2)

/-- Embedding of `AnomalyTradingBot.check_and_close_old_positions`:
fill reconciliation against the exchange-reported positions, then the
timeout-driven close pass.  The second component is the list of
attempted position closes `(symbol, size)`. -/
def check_and_close_old_positions (timeout : ℤ) (closeOk : String → Bool)
    (now : ℤ) (positions : List (String × ℚ)) (st : BotState) :
    BotState × List (String × ℚ) :=
  let st1 := reconcileFills positions st
  let r := goClose timeout closeOk now positions st1.position_tracker
  (⟨st1.active_orders, r.1⟩, r.2)

/-- Keys of an association list. -/
def akeys {α : Type} (m : List (String × α)) : List String :=
  m.map (fun p => p.1)

/-! Helper lemmas about the detector. -/

theorem zScoreSq_nonneg (hist : List ℚ) (value t : ℚ) :
    0 ≤ zScoreSq hist value t := by
  unfold zScoreSq
  split
  · exact div_nonneg (sq_nonneg _) (le_of_lt (by assumption))
  · split <;> norm_num

theorem dimAnomaly_of_ne_zero (hist : List ℚ) (value t : ℚ)
    (h0 : 0 ≤ t) (ht : t ≠ 0) :
    dimAnomaly hist value t = decide (t ^ 2 < zScoreSq hist value t) := by
  unfold dimAnomaly absZgt
  rw [if_neg ht]
  simp [not_lt.mpr h0]

theorem dimAnomaly_of_zero (hist : List ℚ) (value : ℚ) :
    dimAnomaly hist value 0 = true := by
  unfold dimAnomaly absZge
  simp [zScoreSq_nonneg]

theorem zScoreSq_of_zero_var_eq (hist : List ℚ) (value t : ℚ)
    (hv : pvariance hist = 0) (he : value = listMean hist) :
    zScoreSq hist value t = 0 := by
  unfold zScoreSq
  rw [hv]
  simp [he]

theorem zScoreSq_of_zero_var_ne (hist : List ℚ) (value : ℚ)
    (hv : pvariance hist = 0) (he : value ≠ listMean hist) :
    zScoreSq hist value 0 = 1 := by
  unfold zScoreSq
  rw [hv]
  simp [he]

theorem detect_anomaly_of_sufficient (cfg : DetectorConfig) (st : DetectorState)
    (sym : String) (p v : ℚ)
    (hs : cfg.min_samples ≤ (st.volume_history sym).length) :
    detect_anomaly cfg st sym p v =
      ⟨combineFlags cfg.detection_mode
          (dimAnomaly (st.volume_history sym) v cfg.volume_z_threshold)
          (dimAnomaly (st.price_history sym) p cfg.price_z_threshold),
        true, (st.volume_history sym).length,
        listMean (st.volume_history sym), pvariance (st.volume_history sym),
        zScoreSq (st.volume_history sym) v cfg.volume_z_threshold,
        dimAnomaly (st.volume_history sym) v cfg.volume_z_threshold,
        listMean (st.price_history sym), pvariance (st.price_history sym),
        zScoreSq (st.price_history sym) p cfg.price_z_threshold,
        dimAnomaly (st.price_history sym) p cfg.price_z_threshold⟩ := by
  unfold detect_anomaly
  rw [if_neg (not_lt.mpr hs)]

theorem pushBounded_of_lt (w : ℕ) (xs : List ℚ) (x : ℚ) (h : xs.length < w) :
    pushBounded w xs x = xs ++ [x] := by
  have hz : (xs ++ [x]).length - w = 0 := by
    simp only [List.length_append, List.length_cons, List.length_nil]
    omega
  simp only [pushBounded, hz, List.drop_zero]

/-- Claim C3: a step whose paired detect classification returned
`is_anomaly = True` never updates `last_normal_price` (nor
`last_normal_volume`); in fact `update_data` leaves the whole detector
state unchanged on such a step, so the baseline only moves on samples
classified non-anomalous. -/
theorem last_normal_never_updated_on_anomalous (cfg : DetectorConfig)
    (st : DetectorState) (sym : String) (p v : ℚ)
    (h : (detect_anomaly cfg st sym p v).is_anomaly = true) :
    update_data cfg st sym p v = st ∧
    (update_data cfg st sym p v).last_normal_price = st.last_normal_price ∧
    (update_data cfg st sym p v).last_normal_volume = st.last_normal_volume := by
  have hu : update_data cfg st sym p v = st := by
    unfold update_data is_anomalous
    rw [h]
    simp
  exact ⟨hu, by rw [hu], by rw [hu]⟩

/-- Concrete detector scenario used in several witnesses: volume-only
detection, thresholds 3, `min_samples = 3`, `window_size = 30`. -/
def cfgV : DetectorConfig := ⟨30, 3, 3, Mode.vol_only, 3, 0⟩

/-- Concrete detector state: volume history `[10, 12, 10, 12]` (mean 11,
population variance 1), price history `[100, 100, 100, 100]`, baselines
`10` / `100`; reachable by feeding the four samples from a fresh state. -/
def stV : DetectorState :=
  ⟨fun _ => [10, 12, 10, 12], fun _ => [100, 100, 100, 100],
    fun _ => some 10, fun _ => some 100⟩

/-- Witness for C3: on `stV` the sample `(price 100, volume 1000)` has
volume z-score `989` (z² = 978121 > 3²), is classified anomalous, and
`update_data` leaves the state — in particular both baselines — alone. -/
theorem last_normal_never_updated_on_anomalous_witness :
    (detect_anomaly cfgV stV "X" 100 1000).is_anomaly = true ∧
    update_data cfgV stV "X" 100 1000 = stV ∧
    (update_data cfgV stV "X" 100 1000).last_normal_price = stV.last_normal_price ∧
    (update_data cfgV stV "X" 100 1000).last_normal_volume = stV.last_normal_volume := by
  have h : (detect_anomaly cfgV stV "X" 100 1000).is_anomaly = true := by
    norm_num [detect_anomaly, cfgV, stV, dimAnomaly, absZgt, zScoreSq,
      pvariance, listMean, combineFlags]
  have r := last_normal_never_updated_on_anomalous cfgV stV "X" 100 1000 h
  exact ⟨h, r.1, r.2.1, r.2.2⟩

/-- Claim C9: when a symbol's stored history length is exactly
`min_samples`, a non-anomalous `update_data` call appends the sample to
both histories but leaves both baselines untouched, because the guards
test strictly greater-than and strictly less-than `min_samples` and
neither covers equality. -/
theorem update_data_at_min_samples_skips_baseline (cfg : DetectorConfig)
    (st : DetectorState) (sym : String) (p v : ℚ)
    (hlv : (st.volume_history sym).length = cfg.min_samples)
    (hlp : (st.price_history sym).length = cfg.min_samples)
    (hw : cfg.min_samples < cfg.window_size)
    (hna : is_anomalous cfg st sym p v = false) :
    (update_data cfg st sym p v).volume_history sym =
      st.volume_history sym ++ [v] ∧
    (update_data cfg st sym p v).price_history sym =
      st.price_history sym ++ [p] ∧
    (update_data cfg st sym p v).last_normal_price = st.last_normal_price ∧
    (update_data cfg st sym p v).last_normal_volume = st.last_normal_volume := by
  have h1 : ¬ (cfg.min_samples < (st.volume_history sym).length) := by
    rw [hlv]; exact lt_irrefl _
  have h2 : ¬ ((st.volume_history sym).length < cfg.min_samples) := by
    rw [hlv]; exact lt_irrefl _
  have hv : (st.volume_history sym).length < cfg.window_size := by
    rw [hlv]; exact hw
  have hp : (st.price_history sym).length < cfg.window_size := by
    rw [hlp]; exact hw
  unfold update_data
  rw [hna]
  simp only [Bool.false_eq_true, if_false, h1, h2, ite_false, updFn,
    if_pos rfl, pushBounded_of_lt _ _ _ hv, pushBounded_of_lt _ _ _ hp]
  refine ⟨?_, ?_, ?_, ?_⟩ <;> trivial

/-- Concrete detector state with exactly `min_samples = 3` committed
samples: volume history `[10, 12, 10]`, price history `[100, 100, 100]`. -/
def stMin : DetectorState :=
  ⟨fun _ => [10, 12, 10], fun _ => [100, 100, 100],
    fun _ => some 10, fun _ => some 100⟩

/-- Witness for C9: on `stMin` the sample `(price 100, volume 12)` is
classified non-anomalous (volume z² = 2 ≤ 3²), gets appended to both
histories, and both baselines stay at their old values. -/
theorem update_data_at_min_samples_skips_baseline_witness :
    (stMin.volume_history "X").length = cfgV.min_samples ∧
    (stMin.price_history "X").length = cfgV.min_samples ∧
    cfgV.min_samples < cfgV.window_size ∧
    is_anomalous cfgV stMin "X" 100 12 = false ∧
    ((update_data cfgV stMin "X" 100 12).volume_history "X" =
        stMin.volume_history "X" ++ [12] ∧
      (update_data cfgV stMin "X" 100 12).price_history "X" =
        stMin.price_history "X" ++ [100] ∧
      (update_data cfgV stMin "X" 100 12).last_normal_price =
        stMin.last_normal_price ∧
      (update_data cfgV stMin "X" 100 12).last_normal_volume =
        stMin.last_normal_volume) := by
  have hlv : (stMin.volume_history "X").length = cfgV.min_samples := by
    norm_num [stMin, cfgV]
  have hlp : (stMin.price_history "X").length = cfgV.min_samples := by
    norm_num [stMin, cfgV]
  have hw : cfgV.min_samples < cfgV.window_size := by norm_num [cfgV]
  have hna : is_anomalous cfgV stMin "X" 100 12 = false := by
    norm_num [is_anomalous, detect_anomaly, cfgV, stMin, dimAnomaly, absZgt,
      zScoreSq, pvariance, listMean, combineFlags]
  exact ⟨hlv, hlp, hw, hna,
    update_data_at_min_samples_skips_baseline cfgV stMin "X" 100 12 hlv hlp hw hna⟩

theorem detect_price_anomaly_eq (cfg : DetectorConfig) (st : DetectorState)
    (sym : String) (p v : ℚ)
    (hs : cfg.min_samples ≤ (st.volume_history sym).length) :
    (detect_anomaly cfg st sym p v).price_anomaly =
      dimAnomaly (st.price_history sym) p cfg.price_z_threshold := by
  unfold detect_anomaly
  rw [if_neg (not_lt.mpr hs)]

theorem detect_volume_anomaly_eq (cfg : DetectorConfig) (st : DetectorState)
    (sym : String) (p v : ℚ)
    (hs : cfg.min_samples ≤ (st.volume_history sym).length) :
    (detect_anomaly cfg st sym p v).volume_anomaly =
      dimAnomaly (st.volume_history sym) v cfg.volume_z_threshold := by
  unfold detect_anomaly
  rw [if_neg (not_lt.mpr hs)]

theorem detect_price_z_sq_eq (cfg : DetectorConfig) (st : DetectorState)
    (sym : String) (p v : ℚ)
    (hs : cfg.min_samples ≤ (st.volume_history sym).length) :
    (detect_anomaly cfg st sym p v).price_z_sq =
      zScoreSq (st.price_history sym) p cfg.price_z_threshold := by
  unfold detect_anomaly
  rw [if_neg (not_lt.mpr hs)]

theorem detect_volume_z_sq_eq (cfg : DetectorConfig) (st : DetectorState)
    (sym : String) (p v : ℚ)
    (hs : cfg.min_samples ≤ (st.volume_history sym).length) :
    (detect_anomaly cfg st sym p v).volume_z_sq =
      zScoreSq (st.volume_history sym) v cfg.volume_z_threshold := by
  unfold detect_anomaly
  rw [if_neg (not_lt.mpr hs)]

/-- Claim C4: with enough samples and a configured threshold `t ≥ 0`, the
per-dimension flag is `|z| > t` (rendered exactly as `t² < z²`) when
`t ≠ 0` and `|z| ≥ t` (hence always true) when `t = 0`; moreover `z = 0`
(i.e. `z² = 0`) when the history's standard deviation is zero and the
value equals the mean, and with `t = 0` any value differing from a
zero-deviation history gets `z = 1` and is flagged anomalous.  Stated for
both the price and the volume dimension. -/
theorem detect_flag_threshold_semantics (cfg : DetectorConfig)
    (st : DetectorState) (sym : String) (p v : ℚ)
    (hs : cfg.min_samples ≤ (st.volume_history sym).length)
    (htp : 0 ≤ cfg.price_z_threshold)
    (htv : 0 ≤ cfg.volume_z_threshold) :
    ((cfg.price_z_threshold ≠ 0 →
        ((detect_anomaly cfg st sym p v).price_anomaly = true ↔
          cfg.price_z_threshold ^ 2 < (detect_anomaly cfg st sym p v).price_z_sq)) ∧
      (cfg.price_z_threshold = 0 →
        (detect_anomaly cfg st sym p v).price_anomaly = true) ∧
      (pvariance (st.price_history sym) = 0 →
        p = listMean (st.price_history sym) →
        (detect_anomaly cfg st sym p v).price_z_sq = 0) ∧
      (cfg.price_z_threshold = 0 → pvariance (st.price_history sym) = 0 →
        p ≠ listMean (st.price_history sym) →
        (detect_anomaly cfg st sym p v).price_z_sq = 1 ∧
        (detect_anomaly cfg st sym p v).price_anomaly = true)) ∧
    ((cfg.volume_z_threshold ≠ 0 →
        ((detect_anomaly cfg st sym p v).volume_anomaly = true ↔
          cfg.volume_z_threshold ^ 2 < (detect_anomaly cfg st sym p v).volume_z_sq)) ∧
      (cfg.volume_z_threshold = 0 →
        (detect_anomaly cfg st sym p v).volume_anomaly = true) ∧
      (pvariance (st.volume_history sym) = 0 →
        v = listMean (st.volume_history sym) →
        (detect_anomaly cfg st sym p v).volume_z_sq = 0) ∧
      (cfg.volume_z_threshold = 0 → pvariance (st.volume_history sym) = 0 →
        v ≠ listMean (st.volume_history sym) →
        (detect_anomaly cfg st sym p v).volume_z_sq = 1 ∧
        (detect_anomaly cfg st sym p v).volume_anomaly = true)) := by
  rw [detect_price_anomaly_eq cfg st sym p v hs,
    detect_volume_anomaly_eq cfg st sym p v hs,
    detect_price_z_sq_eq cfg st sym p v hs,
    detect_volume_z_sq_eq cfg st sym p v hs]
  refine ⟨⟨?_, ?_, ?_, ?_⟩, ?_, ?_, ?_, ?_⟩
  · intro ht
    rw [dimAnomaly_of_ne_zero _ _ _ htp ht]
    simp
  · intro ht
    rw [ht]
    exact dimAnomaly_of_zero _ _
  · intro hvar he
    exact zScoreSq_of_zero_var_eq _ _ _ hvar he
  · intro ht hvar he
    rw [ht]
    exact ⟨zScoreSq_of_zero_var_ne _ _ hvar he, dimAnomaly_of_zero _ _⟩
  · intro ht
    rw [dimAnomaly_of_ne_zero _ _ _ htv ht]
    simp
  · intro ht
    rw [ht]
    exact dimAnomaly_of_zero _ _
  · intro hvar he
    exact zScoreSq_of_zero_var_eq _ _ _ hvar he
  · intro ht hvar he
    rw [ht]
    exact ⟨zScoreSq_of_zero_var_ne _ _ hvar he, dimAnomaly_of_zero _ _⟩

/-- Witness for C4, at the concrete configuration `cfgV` and state `stV`. -/
theorem detect_flag_threshold_semantics_witness :
    cfgV.min_samples ≤ (stV.volume_history "X").length ∧
    0 ≤ cfgV.price_z_threshold ∧ 0 ≤ cfgV.volume_z_threshold ∧
    (((cfgV.price_z_threshold ≠ 0 →
        ((detect_anomaly cfgV stV "X" 100 1000).price_anomaly = true ↔
          cfgV.price_z_threshold ^ 2 <
            (detect_anomaly cfgV stV "X" 100 1000).price_z_sq)) ∧
      (cfgV.price_z_threshold = 0 →
        (detect_anomaly cfgV stV "X" 100 1000).price_anomaly = true) ∧
      (pvariance (stV.price_history "X") = 0 →
        (100 : ℚ) = listMean (stV.price_history "X") →
        (detect_anomaly cfgV stV "X" 100 1000).price_z_sq = 0) ∧
      (cfgV.price_z_threshold = 0 → pvariance (stV.price_history "X") = 0 →
        (100 : ℚ) ≠ listMean (stV.price_history "X") →
        (detect_anomaly cfgV stV "X" 100 1000).price_z_sq = 1 ∧
        (detect_anomaly cfgV stV "X" 100 1000).price_anomaly = true)) ∧
    ((cfgV.volume_z_threshold ≠ 0 →
        ((detect_anomaly cfgV stV "X" 100 1000).volume_anomaly = true ↔
          cfgV.volume_z_threshold ^ 2 <
            (detect_anomaly cfgV stV "X" 100 1000).volume_z_sq)) ∧
      (cfgV.volume_z_threshold = 0 →
        (detect_anomaly cfgV stV "X" 100 1000).volume_anomaly = true) ∧
      (pvariance (stV.volume_history "X") = 0 →
        (1000 : ℚ) = listMean (stV.volume_history "X") →
        (detect_anomaly cfgV stV "X" 100 1000).volume_z_sq = 0) ∧
      (cfgV.volume_z_threshold = 0 → pvariance (stV.volume_history "X") = 0 →
        (1000 : ℚ) ≠ listMean (stV.volume_history "X") →
        (detect_anomaly cfgV stV "X" 100 1000).volume_z_sq = 1 ∧
        (detect_anomaly cfgV stV "X" 100 1000).volume_anomaly = true))) := by
  have hs : cfgV.min_samples ≤ (stV.volume_history "X").length := by
    norm_num [cfgV, stV]
  have htp : (0 : ℚ) ≤ cfgV.price_z_threshold := by norm_num [cfgV]
  have htv : (0 : ℚ) ≤ cfgV.volume_z_threshold := by norm_num [cfgV]
  exact ⟨hs, htp, htv,
    detect_flag_threshold_semantics cfgV stV "X" 100 1000 hs htp htv⟩

/-- Claim C2 (code bug): the source's comment says `Always update
history`, but the appends sit inside `if not self.is_anomalous(...)`, so
a sample classified anomalous is never committed.  On `stV` the sample
`(price 100, volume 999)` is anomalous (volume z² = 988² > 3²) and
`update_data` leaves both histories — indeed the whole state — unchanged,
instead of appending the sample as the claim (and the comment) demand. -/
theorem update_data_drops_anomalous_sample :
    is_anomalous cfgV stV "X" 100 999 = true ∧
    update_data cfgV stV "X" 100 999 = stV ∧
    (update_data cfgV stV "X" 100 999).volume_history "X" = [10, 12, 10, 12] ∧
    (update_data cfgV stV "X" 100 999).price_history "X" = [100, 100, 100, 100] := by
  have h : is_anomalous cfgV stV "X" 100 999 = true := by
    norm_num [is_anomalous, detect_anomaly, cfgV, stV, dimAnomaly, absZgt,
      zScoreSq, pvariance, listMean, combineFlags]
  have hu : update_data cfgV stV "X" 100 999 = stV := by
    unfold update_data
    rw [h]
    simp
  refine ⟨h, hu, ?_, ?_⟩ <;> rw [hu] <;> norm_num [stV]

/-- Detector configuration of the C8 scenario: `window_size = 5`,
thresholds `3.0`, `min_samples = 3`, price-only detection. -/
def cfgC8 : DetectorConfig := ⟨5, 3, 3, Mode.price_only, 3, 0⟩

/-- Detector state of the C8 scenario after feeding the five samples with
prices `[100, 101, 99, 100, 100]` (constant volume `1`). -/
def stC8 : DetectorState :=
  ⟨fun _ => [1, 1, 1, 1, 1], fun _ => [100, 101, 99, 100, 100],
    fun _ => some 1, fun _ => some 100⟩

/-- Counterexample to C8 as stated: detecting on price `200` over the
history `[100, 101, 99, 100, 100]` gives population variance `2/5`, i.e.
std = √0.4 ≈ 0.632 < 0.7 (nowhere near 0.8), and z² = 25000, i.e.
z ≈ 158.1 > 140 (nowhere near 125). -/
theorem detect_scenario_z_values_counterexample :
    (detect_anomaly cfgC8 stC8 "X" 200 1).price_var = 2 / 5 ∧
    (detect_anomaly cfgC8 stC8 "X" 200 1).price_var < (7 / 10) ^ 2 ∧
    (detect_anomaly cfgC8 stC8 "X" 200 1).price_z_sq = 25000 ∧
    ((140 : ℚ)) ^ 2 < (detect_anomaly cfgC8 stC8 "X" 200 1).price_z_sq := by
  norm_num [detect_anomaly, cfgC8, stC8, zScoreSq, pvariance, listMean]

/-- Claim C8 as amended: the scenario detection on price `200` computes
mean `100`, population variance `2/5` (std ≈ 0.632, bracketed between
0.63 and 0.64), z² = 25000 (z ≈ 158.1, bracketed between 158 and 159),
and returns `is_anomaly = True`. -/
theorem detect_scenario_amended :
    (detect_anomaly cfgC8 stC8 "X" 200 1).price_mean = 100 ∧
    (detect_anomaly cfgC8 stC8 "X" 200 1).price_var = 2 / 5 ∧
    ((63 / 100 : ℚ)) ^ 2 < (detect_anomaly cfgC8 stC8 "X" 200 1).price_var ∧
    (detect_anomaly cfgC8 stC8 "X" 200 1).price_var < ((64 / 100 : ℚ)) ^ 2 ∧
    (detect_anomaly cfgC8 stC8 "X" 200 1).price_z_sq = 25000 ∧
    ((158 : ℚ)) ^ 2 < (detect_anomaly cfgC8 stC8 "X" 200 1).price_z_sq ∧
    (detect_anomaly cfgC8 stC8 "X" 200 1).price_z_sq < ((159 : ℚ)) ^ 2 ∧
    (detect_anomaly cfgC8 stC8 "X" 200 1).is_anomaly = true := by
  norm_num [detect_anomaly, cfgC8, stC8, zScoreSq, pvariance, listMean,
    dimAnomaly, absZgt, combineFlags]

/-! Helper lemmas about association-list dicts. -/

theorem alookup_ainsert_self {α : Type} (m : List (String × α)) (k : String)
    (v : α) : alookup (ainsert m k v) k = some v := by
  unfold ainsert
  induction m with
  | nil => simp [aerase, alookup]
  | cons hd tl ih =>
    unfold aerase at ih ⊢
    by_cases h : hd.1 = k
    · simpa [List.filter, h] using ih
    · simpa [List.filter, h, alookup] using ih

theorem alookup_eq_none_iff {α : Type} (m : List (String × α)) (k : String) :
    alookup m k = none ↔ ∀ v : α, (k, v) ∉ m := by
  induction m with
  | nil => simp [alookup]
  | cons hd tl ih =>
    obtain ⟨k', v'⟩ := hd
    by_cases h : k' = k
    · subst h
      have l1 : alookup ((k', v') :: tl) k' = some v' := by simp [alookup]
      constructor
      · intro h0
        rw [l1] at h0
        exact (Option.some_ne_none _ h0).elim
      · intro hall
        exact absurd (List.mem_cons_self _ _) (hall v')
    · simp only [alookup, if_neg h, ih]
      constructor
      · intro hall v hmem
        rcases List.mem_cons.mp hmem with heq | hmem'
        · exact h (by injection heq with h1 h2; exact h1.symm)
        · exact hall v hmem'
      · intro hall v hmem
        exact hall v (List.mem_cons_of_mem _ hmem)

theorem mem_of_mem_aerase {α : Type} {m : List (String × α)} {k : String}
    {p : String × α} (h : p ∈ aerase m k) : p ∈ m :=
  (List.mem_filter.mp h).1

theorem mem_ainsert_cases {α : Type} {m : List (String × α)} {k : String}
    {v : α} {p : String × α} (h : p ∈ ainsert m k v) :
    p = (k, v) ∨ p ∈ m := by
  rcases List.mem_append.mp h with h1 | h2
  · exact Or.inr (mem_of_mem_aerase h1)
  · exact Or.inl (by simpa using h2)

/-- Claim C10: order and position ages are read from the `seconds`
attribute of the elapsed `timedelta`, which discards whole days, so an
entry whose true age is at least 86400 seconds counts as expired exactly
when its age modulo 86400 reaches the timeout; in particular an order
whose age modulo 86400 is still below the timeout is left in place by
`check_expired_orders` with no cancellation attempted on that tick. -/
theorem expiry_age_day_truncation (timeout now : ℤ) (o : OrderInfo)
    (tr : TrackerInfo) (cancelOk : String → ℕ → Bool) (sym : String)
    (trk : List (String × TrackerInfo))
    (hageO : 86400 ≤ now - o.placed_at)
    (hageT : 86400 ≤ now - tr.opened_at) :
    (orderIsExpired timeout now o = true ↔
      timeout ≤ (now - o.placed_at) % 86400) ∧
    (positionIsExpired timeout now tr = true ↔
      timeout ≤ (now - tr.opened_at) % 86400) ∧
    ((now - o.placed_at) % 86400 < timeout →
      check_expired_orders timeout cancelOk now ⟨[(sym, [o])], trk⟩ =
        (⟨[(sym, [o])], trk⟩, [])) := by
  refine ⟨by simp [orderIsExpired, tdSeconds],
    by simp [positionIsExpired, tdSeconds], ?_⟩
  intro h
  have hfalse : orderIsExpired timeout now o = false := by
    simp [orderIsExpired, tdSeconds, not_le.mpr h]
  simp [check_expired_orders, goExpire, expireOrders, hfalse]

/-- Concrete order aged `order_timeout + 86400 - 1 = 86999` seconds at
`now = 86999` (placed at `0`): the seconds component of its age is
`599 < 600`. -/
def oW : OrderInfo := ⟨1, 50, 1, true, 0, 100, 1 / 2, 50⟩

/-- Concrete tracker entry with the same timestamp. -/
def trW : TrackerInfo := ⟨0, true, [50], [1], 1, 1⟩

/-- Witness for C10: with `order_timeout = 600` and `now = 86999`, the
order `oW` (true age 86999 ≥ 86400, age mod 86400 = 599 < 600) is not
treated as expired and `check_expired_orders` changes nothing. -/
theorem expiry_age_day_truncation_witness :
    (86400 : ℤ) ≤ 86999 - oW.placed_at ∧
    (86400 : ℤ) ≤ 86999 - trW.opened_at ∧
    ((orderIsExpired 600 86999 oW = true ↔
        (600 : ℤ) ≤ (86999 - oW.placed_at) % 86400) ∧
      (positionIsExpired 600 86999 trW = true ↔
        (600 : ℤ) ≤ (86999 - trW.opened_at) % 86400) ∧
      ((86999 - oW.placed_at) % 86400 < 600 →
        check_expired_orders 600 (fun _ _ => true) 86999 ⟨[("X", [oW])], []⟩ =
          (⟨[("X", [oW])], []⟩, []))) := by
  have h1 : (86400 : ℤ) ≤ 86999 - oW.placed_at := by norm_num [oW]
  have h2 : (86400 : ℤ) ≤ 86999 - trW.opened_at := by norm_num [trW]
  exact ⟨h1, h2,
    expiry_age_day_truncation 600 86999 oW trW (fun _ _ => true) "X" [] h1 h2⟩

theorem reconcileFills_tracker_mem {sym : String} {tr' : TrackerInfo} :
    ∀ (positions : List (String × ℚ)) (st : BotState),
    alookup positions sym = none →
    (sym, tr') ∈ (reconcileFills positions st).position_tracker →
    (sym, tr') ∈ st.position_tracker := by
  intro positions
  induction positions with
  | nil =>
    intro st _ h
    exact h
  | cons hd tl ih =>
    intro st hpos hmem
    obtain ⟨s, sz⟩ := hd
    have hs : ¬ s = sym := by
      intro h
      simp [alookup, h] at hpos
    have hrest : alookup tl sym = none := by
      simpa [alookup, hs] using hpos
    simp only [reconcileFills] at hmem
    have hmem1 := ih _ hrest hmem
    by_cases hcond : (alookup st.position_tracker s).isNone = true ∧
        (alookup st.active_orders s).isSome = true
    · rw [if_pos hcond] at hmem1
      rcases hlook : alookup st.active_orders s with _ | os
      · rw [hlook] at hmem1
        exact hmem1
      · rcases os with _ | ⟨first, others⟩
        · rw [hlook] at hmem1
          exact hmem1
        · rw [hlook] at hmem1
          rcases mem_ainsert_cases hmem1 with heq | hmem2
          · injection heq with he1 he2
            exact absurd he1.symm hs
          · exact hmem2
    · rw [if_neg hcond] at hmem1
      exact hmem1

theorem goClose_absent {timeout now : ℤ} {closeOk : String → Bool}
    {positions : List (String × ℚ)} {sym : String}
    (hpos : alookup positions sym = none) :
    ∀ tracker : List (String × TrackerInfo),
    (∀ tr', (sym, tr') ∈ tracker → positionIsExpired timeout now tr' = true) →
    sym ∉ akeys (goClose timeout closeOk now positions tracker).1 ∧
    (∀ q ∈ (goClose timeout closeOk now positions tracker).2, q.1 ≠ sym) := by
  intro tracker
  induction tracker with
  | nil =>
    intro _
    simp [goClose, akeys]
  | cons hd tl ih =>
    intro hexp
    obtain ⟨s, tr⟩ := hd
    have htl := ih (fun tr' h => hexp tr' (List.mem_cons_of_mem _ h))
    by_cases hs : s = sym
    · subst hs
      have hex : positionIsExpired timeout now tr = true :=
        hexp tr (List.mem_cons_self _ _)
      simp only [goClose, hex, if_true, hpos]
      exact htl
    · have hsym : sym ≠ s := fun h => hs h.symm
      simp only [goClose]
      cases hex : positionIsExpired timeout now tr
      · simp only [Bool.false_eq_true, if_false]
        refine ⟨?_, htl.2⟩
        simp only [akeys, List.map_cons, List.mem_cons]
        rintro (h | h)
        · exact hsym h
        · exact htl.1 (by simpa [akeys] using h)
      · simp only [if_true]
        rcases hlook : alookup positions s with _ | psize
        · exact htl
        · cases hco : closeOk s
          · simp only [Bool.false_eq_true, if_false]
            constructor
            · simp only [akeys, List.map_cons, List.mem_cons]
              rintro (h | h)
              · exact hsym h
              · exact htl.1 (by simpa [akeys] using h)
            · intro q hq
              rcases List.mem_cons.mp hq with h | h
              · rw [h]
                exact hsym.symm
              · exact htl.2 q h
          · simp only [if_true]
            refine ⟨htl.1, ?_⟩
            intro q hq
            rcases List.mem_cons.mp hq with h | h
            · rw [h]
              exact hsym.symm
            · exact htl.2 q h

/-- Claim C7: a tracked position that is past its close timeout while the
exchange reports no position for its symbol (the reported size became
zero, since `get_positions` only returns nonzero positions) is removed
from the tracker by `check_and_close_old_positions` without any close
order being attempted for that symbol. -/
theorem position_gone_dropped_without_close (timeout now : ℤ)
    (closeOk : String → Bool) (positions : List (String × ℚ))
    (st : BotState) (sym : String) (tr : TrackerInfo)
    (htr : alookup st.position_tracker sym = some tr)
    (hexp : ∀ tr', (sym, tr') ∈ st.position_tracker →
      positionIsExpired timeout now tr' = true)
    (hpos : alookup positions sym = none) :
    sym ∉ akeys (check_and_close_old_positions timeout closeOk now
        positions st).1.position_tracker ∧
    (∀ q ∈ (check_and_close_old_positions timeout closeOk now
        positions st).2, q.1 ≠ sym) := by
  have hexp1 : ∀ tr', (sym, tr') ∈ (reconcileFills positions st).position_tracker →
      positionIsExpired timeout now tr' = true :=
    fun tr' h => hexp tr' (reconcileFills_tracker_mem positions st hpos h)
  exact @goClose_absent timeout now closeOk positions sym hpos
    (reconcileFills positions st).position_tracker hexp1

/-- Concrete bot state holding one tracked position for symbol `X`. -/
def stP : BotState := ⟨[], [("X", trW)]⟩

/-- Witness for C7: at `now = 1800 = position_close_timeout`, with the
exchange reporting only a position for `Y`, the `X` tracker entry is
dropped and no close is attempted for `X`. -/
theorem position_gone_dropped_without_close_witness :
    alookup stP.position_tracker "X" = some trW ∧
    alookup [("Y", (5 : ℚ))] "X" = none ∧
    ("X" ∉ akeys (check_and_close_old_positions 1800 (fun _ => true) 1800
        [("Y", (5 : ℚ))] stP).1.position_tracker ∧
      (∀ q ∈ (check_and_close_old_positions 1800 (fun _ => true) 1800
          [("Y", (5 : ℚ))] stP).2, q.1 ≠ "X")) := by
  have htr : alookup stP.position_tracker "X" = some trW := by
    simp [stP, alookup]
  have hpos : alookup [("Y", (5 : ℚ))] "X" = none := by
    simp [alookup]
  have hexp : ∀ tr', ("X", tr') ∈ stP.position_tracker →
      positionIsExpired 1800 1800 tr' = true := by
    intro tr' h
    simp only [stP, List.mem_singleton] at h
    injection h with h1 h2
    rw [h2]
    norm_num [positionIsExpired, tdSeconds, trW]
  exact ⟨htr, hpos,
    position_gone_dropped_without_close 1800 1800 (fun _ => true)
      [("Y", (5 : ℚ))] stP "X" trW htr hexp hpos⟩

theorem mem_placeLegsFrom (gw : ℕ → Option ℕ) (now : ℤ) (lnp : ℚ) :
    ∀ (legs : List (ℚ × ℚ)) (i j : ℕ) (leg : ℚ × ℚ) (oid : ℕ),
    legs.get? j = some leg → gw (i + j) = some oid →
    mkLegOrder now lnp oid leg ∈ placeLegsFrom gw now lnp i legs := by
  intro legs
  induction legs with
  | nil =>
    intro i j leg oid hget _
    simp at hget
  | cons hd tl ih =>
    intro i j leg oid hget hgw
    cases j with
    | zero =>
      simp only [List.get?] at hget
      injection hget with hh
      subst hh
      rw [Nat.add_zero] at hgw
      simp only [placeLegsFrom, hgw]
      exact List.mem_cons_self _ _
    | succ j' =>
      simp only [List.get?] at hget
      have hgw' : gw ((i + 1) + j') = some oid := by
        rw [show (i + 1) + j' = i + (j' + 1) by omega]
        exact hgw
      have hmem := ih (i + 1) j' leg oid hget hgw'
      simp only [placeLegsFrom]
      cases hgi : gw i
      · exact hmem
      · exact List.mem_cons_of_mem _ hmem

theorem placeLegsFrom_eq_nil_iff (gw : ℕ → Option ℕ) (now : ℤ) (lnp : ℚ) :
    ∀ (legs : List (ℚ × ℚ)) (i : ℕ),
    placeLegsFrom gw now lnp i legs = [] ↔
      ∀ j, j < legs.length → gw (i + j) = none := by
  intro legs
  induction legs with
  | nil =>
    intro i
    simp [placeLegsFrom]
  | cons hd tl ih =>
    intro i
    simp only [placeLegsFrom]
    cases hgi : gw i
    · rw [ih (i + 1)]
      constructor
      · intro hall j hj
        cases j with
        | zero => simpa using hgi
        | succ j' =>
          have := hall j' (by simpa [Nat.succ_lt_succ_iff] using hj)
          rw [show i + (j' + 1) = (i + 1) + j' by omega]
          exact this
      · intro hall j hj
        have := hall (j + 1) (by simp [Nat.succ_lt_succ_iff]; omega)
        rw [show (i + 1) + j = i + (j + 1) by omega]
        exact this
    · constructor
      · intro h
        exact absurd h (List.cons_ne_nil _ _)
      · intro hall
        have := hall 0 (by simp)
        rw [Nat.add_zero, hgi] at this
        exact absurd this (Option.some_ne_none _)

theorem process_anomaly_eq (cfg : BotConfig) (lastNormal : String → Option ℚ)
    (gw : ℕ → Option ℕ) (now : ℤ) (sym : String) (cp : ℚ) (st : BotState)
    (lnp : ℚ)
    (hact : alookup st.active_orders sym = none)
    (hcap : st.active_orders.length < cfg.max_concurrent_orders)
    (hln : lastNormal sym = some lnp)
    (hlnp : lnp ≠ 0) (hcp : cp ≠ 0) :
    process_anomaly cfg lastNormal gw now sym cp st =
      match placeLegs gw now lnp
          (cfg.price_multipliers.zip cfg.order_amounts_usdc) with
      | [] => st
      | first :: rest =>
        { active_orders := ainsert st.active_orders sym (first :: rest)
          position_tracker :=
            ainsert st.position_tracker sym (mkTracker first (first :: rest)) } := by
  unfold process_anomaly
  rw [hact, hln]
  simp only [Option.isSome_none, Bool.false_eq_true, if_false]
  rw [if_neg (not_le.mpr hcap), if_neg hlnp, if_neg hcp]

/-- Claim C5: every successfully placed leg of a handled anomaly is
recorded in `active_orders` with `target_price = baseline * multiplier`,
side BUY exactly when the multiplier is below 1, and
`size = notional / target_price`. -/
theorem anomaly_leg_pricing (cfg : BotConfig) (lastNormal : String → Option ℚ)
    (gw : ℕ → Option ℕ) (now : ℤ) (sym : String) (cp : ℚ) (st : BotState)
    (lnp : ℚ)
    (hact : alookup st.active_orders sym = none)
    (hcap : st.active_orders.length < cfg.max_concurrent_orders)
    (hln : lastNormal sym = some lnp)
    (hlnp : lnp ≠ 0) (hcp : cp ≠ 0)
    (j : ℕ) (leg : ℚ × ℚ) (oid : ℕ)
    (hleg : (cfg.price_multipliers.zip cfg.order_amounts_usdc).get? j = some leg)
    (hgw : gw j = some oid) :
    ∃ os, alookup (process_anomaly cfg lastNormal gw now sym cp
        st).active_orders sym = some os ∧
      mkLegOrder now lnp oid leg ∈ os ∧
      (mkLegOrder now lnp oid leg).price = lnp * leg.1 ∧
      ((mkLegOrder now lnp oid leg).is_buy = true ↔ leg.1 < 1) ∧
      (mkLegOrder now lnp oid leg).size = leg.2 / (lnp * leg.1) := by
  rw [process_anomaly_eq cfg lastNormal gw now sym cp st lnp hact hcap hln hlnp hcp]
  have hmem : mkLegOrder now lnp oid leg ∈
      placeLegs gw now lnp (cfg.price_multipliers.zip cfg.order_amounts_usdc) := by
    unfold placeLegs
    exact mem_placeLegsFrom gw now lnp _ 0 j leg oid hleg (by simpa using hgw)
  rcases hplace : placeLegs gw now lnp
      (cfg.price_multipliers.zip cfg.order_amounts_usdc) with _ | ⟨first, rest⟩
  · rw [hplace] at hmem
    simp at hmem
  · rw [hplace] at hmem
    exact ⟨first :: rest, alookup_ainsert_self _ _ _, hmem, rfl,
      by simp [mkLegOrder], rfl⟩

/-- Configuration of the worked multi-leg example: two legs
`[(0.5, 50), (3.0, 50)]`, cap of one concurrent order set. -/
def cfgB : BotConfig := ⟨600, 1800, 1, [1 / 2, 3], [50, 50]⟩

/-- Detector baseline oracle reporting `last_normal_price = 100`. -/
def lnF : String → Option ℚ := fun _ => some 100

/-- Gateway on which every placement succeeds (order id = leg index + 1). -/
def gwOk : ℕ → Option ℕ := fun i => some (i + 1)

/-- Empty lifecycle state: no active orders, no tracked positions. -/
def st0 : BotState := ⟨[], []⟩

/-- Witness for C5: with baseline 100 and legs `[(0.5, 50), (3.0, 50)]`,
the placed campaign holds a BUY leg at price 50 with size 1 and a SELL
leg at price 300 with size 1/6, which rounds to the spec's 0.1667 (the
distance to 0.1667 is below 1/10000). -/
theorem anomaly_leg_pricing_witness :
    alookup st0.active_orders "X" = none ∧
    st0.active_orders.length < cfgB.max_concurrent_orders ∧
    lnF "X" = some 100 ∧
    (cfgB.price_multipliers.zip cfgB.order_amounts_usdc).get? 0 =
      some (1 / 2, 50) ∧
    (cfgB.price_multipliers.zip cfgB.order_amounts_usdc).get? 1 =
      some (3, 50) ∧
    (∃ os, alookup (process_anomaly cfgB lnF gwOk 0 "X" 200
        st0).active_orders "X" = some os ∧
      mkLegOrder 0 100 1 (1 / 2, 50) ∈ os ∧
      (mkLegOrder 0 100 1 (1 / 2, 50)).price = 100 * (1 / 2) ∧
      ((mkLegOrder 0 100 1 (1 / 2, 50)).is_buy = true ↔ (1 / 2 : ℚ) < 1) ∧
      (mkLegOrder 0 100 1 (1 / 2, 50)).size = 50 / (100 * (1 / 2))) ∧
    (∃ os, alookup (process_anomaly cfgB lnF gwOk 0 "X" 200
        st0).active_orders "X" = some os ∧
      mkLegOrder 0 100 2 (3, 50) ∈ os ∧
      (mkLegOrder 0 100 2 (3, 50)).price = 100 * 3 ∧
      ((mkLegOrder 0 100 2 (3, 50)).is_buy = true ↔ (3 : ℚ) < 1) ∧
      (mkLegOrder 0 100 2 (3, 50)).size = 50 / (100 * 3)) ∧
    (mkLegOrder 0 100 1 (1 / 2, 50)).price = 50 ∧
    (mkLegOrder 0 100 1 (1 / 2, 50)).size = 1 ∧
    (mkLegOrder 0 100 1 (1 / 2, 50)).is_buy = true ∧
    (mkLegOrder 0 100 2 (3, 50)).price = 300 ∧
    (mkLegOrder 0 100 2 (3, 50)).size = 1 / 6 ∧
    (mkLegOrder 0 100 2 (3, 50)).is_buy = false ∧
    |(1 / 6 : ℚ) - 1667 / 10000| < 1 / 10000 := by
  have hact : alookup st0.active_orders "X" = none := by simp [st0, alookup]
  have hcap : st0.active_orders.length < cfgB.max_concurrent_orders := by
    simp [st0, cfgB]
  have hln : lnF "X" = some 100 := rfl
  have hleg0 : (cfgB.price_multipliers.zip cfgB.order_amounts_usdc).get? 0 =
      some (1 / 2, 50) := by simp [cfgB]
  have hleg1 : (cfgB.price_multipliers.zip cfgB.order_amounts_usdc).get? 1 =
      some (3, 50) := by simp [cfgB]
  refine ⟨hact, hcap, hln, hleg0, hleg1,
    anomaly_leg_pricing cfgB lnF gwOk 0 "X" 200 st0 100 hact hcap hln
      (by norm_num) (by norm_num) 0 (1 / 2, 50) 1 hleg0 rfl,
    anomaly_leg_pricing cfgB lnF gwOk 0 "X" 200 st0 100 hact hcap hln
      (by norm_num) (by norm_num) 1 (3, 50) 2 hleg1 rfl,
    ?_, ?_, ?_, ?_, ?_, ?_, ?_⟩ <;> norm_num [mkLegOrder, abs_lt]

/-- Claim C6: a gateway failure on one leg does not abort the others —
every leg whose placement succeeds is recorded no matter which other legs
failed — and the campaign is recorded (the symbol is stored in
`active_orders`, the source's ORDERS_PLACED condition) exactly when at
least one leg's placement succeeded. -/
theorem partial_leg_failure_campaign (cfg : BotConfig)
    (lastNormal : String → Option ℚ) (gw : ℕ → Option ℕ) (now : ℤ)
    (sym : String) (cp : ℚ) (st : BotState) (lnp : ℚ)
    (hact : alookup st.active_orders sym = none)
    (hcap : st.active_orders.length < cfg.max_concurrent_orders)
    (hln : lastNormal sym = some lnp)
    (hlnp : lnp ≠ 0) (hcp : cp ≠ 0) :
    (∀ (j : ℕ) (leg : ℚ × ℚ) (oid : ℕ),
      (cfg.price_multipliers.zip cfg.order_amounts_usdc).get? j = some leg →
      gw j = some oid →
      ∃ os, alookup (process_anomaly cfg lastNormal gw now sym cp
          st).active_orders sym = some os ∧
        mkLegOrder now lnp oid leg ∈ os) ∧
    ((alookup (process_anomaly cfg lastNormal gw now sym cp
        st).active_orders sym).isSome = true ↔
      ∃ j, j < (cfg.price_multipliers.zip cfg.order_amounts_usdc).length ∧
        (gw j).isSome = true) := by
  rw [process_anomaly_eq cfg lastNormal gw now sym cp st lnp hact hcap hln hlnp hcp]
  rcases hplace : placeLegs gw now lnp
      (cfg.price_multipliers.zip cfg.order_amounts_usdc) with _ | ⟨first, rest⟩
  · have hnone : ∀ j, j < (cfg.price_multipliers.zip
        cfg.order_amounts_usdc).length → gw j = none := by
      intro j hj
      have := (placeLegsFrom_eq_nil_iff gw now lnp _ 0).mp hplace j hj
      simpa using this
    constructor
    · intro j leg oid hleg hgw
      have hj : j < (cfg.price_multipliers.zip cfg.order_amounts_usdc).length :=
        List.get?_eq_some.mp hleg |>.1
      rw [hnone j hj] at hgw
      exact absurd hgw (Option.noConfusion)
    · rw [hact]
      simp only [Option.isSome_none, Bool.false_eq_true, false_iff]
      rintro ⟨j, hj, hsome⟩
      rw [hnone j hj] at hsome
      simp at hsome
  · constructor
    · intro j leg oid hleg hgw
      have hmem : mkLegOrder now lnp oid leg ∈
          placeLegs gw now lnp (cfg.price_multipliers.zip cfg.order_amounts_usdc) := by
        unfold placeLegs
        exact mem_placeLegsFrom gw now lnp _ 0 j leg oid hleg (by simpa using hgw)
      rw [hplace] at hmem
      exact ⟨first :: rest, alookup_ainsert_self _ _ _, hmem⟩
    · rw [alookup_ainsert_self]
      simp only [Option.isSome_some, true_iff]
      by_contra hno
      push_neg at hno
      have : placeLegs gw now lnp
          (cfg.price_multipliers.zip cfg.order_amounts_usdc) = [] := by
        unfold placeLegs
        rw [placeLegsFrom_eq_nil_iff]
        intro j hj
        have := hno j hj
        simpa [Option.isSome_iff_ne_none] using this
      rw [hplace] at this
      exact List.cons_ne_nil _ _ this

/-- Gateway on which the first leg's placement fails and every later
leg's placement succeeds. -/
def gwPart : ℕ → Option ℕ := fun i => if i = 0 then none else some i

/-- Witness for C6, on the two-leg configuration with the first leg
failing: the second leg is still recorded and the campaign counts as
placed. -/
theorem partial_leg_failure_campaign_witness :
    alookup st0.active_orders "X" = none ∧
    st0.active_orders.length < cfgB.max_concurrent_orders ∧
    lnF "X" = some 100 ∧
    ((∀ (j : ℕ) (leg : ℚ × ℚ) (oid : ℕ),
      (cfgB.price_multipliers.zip cfgB.order_amounts_usdc).get? j = some leg →
      gwPart j = some oid →
      ∃ os, alookup (process_anomaly cfgB lnF gwPart 0 "X" 200
          st0).active_orders "X" = some os ∧
        mkLegOrder 0 100 oid leg ∈ os) ∧
    ((alookup (process_anomaly cfgB lnF gwPart 0 "X" 200
        st0).active_orders "X").isSome = true ↔
      ∃ j, j < (cfgB.price_multipliers.zip cfgB.order_amounts_usdc).length ∧
        (gwPart j).isSome = true)) := by
  have hact : alookup st0.active_orders "X" = none := by simp [st0, alookup]
  have hcap : st0.active_orders.length < cfgB.max_concurrent_orders := by
    simp [st0, cfgB]
  exact ⟨hact, hcap, rfl,
    partial_leg_failure_campaign cfgB lnF gwPart 0 "X" 200 st0 100 hact hcap
      rfl (by norm_num) (by norm_num)⟩

/-- Counterexample to C1 as stated: from the initial state (both maps
empty), one `process_anomaly` call whose placements succeed leaves the
symbol `X` present in `active_orders` and in `position_tracker` at the
same time, so a reachable state violates the at-most-one-map invariant. -/
theorem symbol_in_both_maps_counterexample :
    (alookup (process_anomaly cfgB lnF gwOk 0 "X" 200
        st0).active_orders "X").isSome = true ∧
    (alookup (process_anomaly cfgB lnF gwOk 0 "X" 200
        st0).position_tracker "X").isSome = true := by
  rw [process_anomaly_eq cfgB lnF gwOk 0 "X" 200 st0 100
    (by simp [st0, alookup]) (by simp [st0, cfgB]) rfl (by norm_num)
    (by norm_num)]
  have hpl : placeLegs gwOk 0 100
      (cfgB.price_multipliers.zip cfgB.order_amounts_usdc) =
      [mkLegOrder 0 100 1 (1 / 2, 50), mkLegOrder 0 100 2 (3, 50)] := by
    simp [cfgB, placeLegs, placeLegsFrom, gwOk]
  rw [hpl]
  simp only [alookup_ainsert_self, Option.isSome_some]
  exact ⟨trivial, trivial⟩

/-- Claim C1 as amended: `process_anomaly` with at least one successful
leg records the symbol in `active_orders` and, simultaneously,
pre-records it in `position_tracker` (optimistic fill tracking), so a
symbol can be present in both maps at once; the invariant as stated
holds only for the other operations. -/
theorem process_anomaly_records_both (cfg : BotConfig)
    (lastNormal : String → Option ℚ) (gw : ℕ → Option ℕ) (now : ℤ)
    (sym : String) (cp : ℚ) (st : BotState) (lnp : ℚ)
    (hact : alookup st.active_orders sym = none)
    (hcap : st.active_orders.length < cfg.max_concurrent_orders)
    (hln : lastNormal sym = some lnp)
    (hlnp : lnp ≠ 0) (hcp : cp ≠ 0)
    (hsucc : ∃ j, j < (cfg.price_multipliers.zip
        cfg.order_amounts_usdc).length ∧ (gw j).isSome = true) :
    (alookup (process_anomaly cfg lastNormal gw now sym cp
        st).active_orders sym).isSome = true ∧
    (alookup (process_anomaly cfg lastNormal gw now sym cp
        st).position_tracker sym).isSome = true := by
  rw [process_anomaly_eq cfg lastNormal gw now sym cp st lnp hact hcap hln hlnp hcp]
  rcases hplace : placeLegs gw now lnp
      (cfg.price_multipliers.zip cfg.order_amounts_usdc) with _ | ⟨first, rest⟩
  · exfalso
    obtain ⟨j, hj, hsome⟩ := hsucc
    have := (placeLegsFrom_eq_nil_iff gw now lnp _ 0).mp hplace j hj
    rw [Nat.zero_add] at this
    rw [this] at hsome
    simp at hsome
  · simp only [alookup_ainsert_self, Option.isSome_some]
    exact ⟨trivial, trivial⟩

/-- Witness for the amended C1, on the concrete two-leg configuration
with an all-success gateway. -/
theorem process_anomaly_records_both_witness :
    alookup st0.active_orders "X" = none ∧
    st0.active_orders.length < cfgB.max_concurrent_orders ∧
    lnF "X" = some 100 ∧
    (∃ j, j < (cfgB.price_multipliers.zip
        cfgB.order_amounts_usdc).length ∧ (gwOk j).isSome = true) ∧
    ((alookup (process_anomaly cfgB lnF gwOk 7 "Y" 200
        st0).active_orders "Y").isSome = true ∧
      (alookup (process_anomaly cfgB lnF gwOk 7 "Y" 200
        st0).position_tracker "Y").isSome = true) := by
  have hact : alookup st0.active_orders "Y" = none := by simp [st0, alookup]
  have hcap : st0.active_orders.length < cfgB.max_concurrent_orders := by
    simp [st0, cfgB]
  have hsucc : ∃ j, j < (cfgB.price_multipliers.zip
      cfgB.order_amounts_usdc).length ∧ (gwOk j).isSome = true :=
    ⟨0, by simp [cfgB], rfl⟩
  exact ⟨by simp [st0, alookup], hcap, rfl, hsucc,
    process_anomaly_records_both cfgB lnF gwOk 7 "Y" 200 st0 100 hact hcap
      rfl (by norm_num) (by norm_num) hsucc⟩
